import Mathlib

set_option autoImplicit false

/-!
Shallow embedding of `src/toddler_typing/keyboard/locker.py` (class
`KeyboardLocker`): keyboard interception and exit-combination detection for
a kiosk-mode input guard.  Timestamps (Python `time.time()` floats) are
modelled as rationals; the Python `set` of held keys is modelled as a
duplicate-free list of strings and the `key_timestamps` dict as an
association list.  Events arrive serially on the hook thread, so the
`key_lock`-guarded bodies are embedded as pure state transformers.
-/

/-- The pynput key objects the module handles explicitly, plus the two
catch-all shapes `_normalize_key` distinguishes: a `KeyCode` carrying a
character, and any other special key exposing a `name` attribute. -/
inductive RawKey where
  | ctrl_l | ctrl_r | shift_l | shift_r | alt_l | alt_r
  | esc | cmd_l | cmd_r | tab | f4
  | charKey (c : Char)
  | namedKey (n : String)
  deriving DecidableEq

/-- `_normalize_key(key)`: a `KeyCode` with a character normalizes to the
lower-cased character; the keys listed in `self.key_map` normalize to their
map name (both side variants of a modifier to the same name); any other
named key to its lower-cased `name`. -/
def normalizeKey : RawKey → String
  | .ctrl_l => "ctrl"
  | .ctrl_r => "ctrl"
  | .shift_l => "shift"
  | .shift_r => "shift"
  | .alt_l => "alt"
  | .alt_r => "alt"
  | .esc => "esc"
  | .cmd_l => "windows"
  | .cmd_r => "windows"
  | .tab => "tab"
  | .f4 => "f4"
  | .charKey c => (c.toLower).toString
  | .namedKey n => n.toLower

/-- `sys.platform`: the constructor and `start` only check it against
`"win32"`, so two cases suffice. -/
inductive Platform where
  | win32
  | other
  deriving DecidableEq

/-- An exception propagating out of the pynput listener creation or start
(the OS denying the low-level hook). -/
structure HookError where
  msg : String
  deriving DecidableEq

/-- The mutable attributes of a `KeyboardLocker` instance.  `listener`
records whether a pynput listener object has been created (`self.listener`
is not `None`). -/
structure LockerState where
  platform : Platform
  exit_combination : List String
  current_keys : List String
  key_timestamps : List (String × ℚ)
  exit_combo_timeout : ℚ
  should_exit_flag : Bool
  listener : Bool
  running : Bool
  deriving DecidableEq

/-- `KeyboardLocker.__init__` in the Windows case (off Windows the
constructor raises, see `initLocker`).  Python's
`exit_combination or ["ctrl", "shift", "esc"]` substitutes the default for
any falsy argument, i.e. both for `None` and for the empty list. -/
def initState (exit_combination : Option (List String)) : LockerState where
  platform := .win32
  exit_combination :=
    match exit_combination with
    | none => ["ctrl", "shift", "esc"]
    | some l => if l = [] then ["ctrl", "shift", "esc"] else l
  current_keys := []
  key_timestamps := []
  exit_combo_timeout := 2
  should_exit_flag := false
  listener := false
  running := false

/-- The constructor including its platform guard: it raises
`OSError("KeyboardLocker only works on Windows")` when `sys.platform` is
not `"win32"`. -/
def initLocker (platform : Platform) (exit_combination : Option (List String)) :
    Except String LockerState :=
  if platform = .win32 then .ok (initState exit_combination)
  else .error "KeyboardLocker only works on Windows"

/-- Python `set.add`: insert the element unless already present. -/
def addKey (k : String) (l : List String) : List String :=
  if k ∈ l then l else l ++ [k]

/-- Python dict assignment `d[k] = v`: overwrite the entry for `k` in
place, or append a fresh one. -/
def updateTs (k : String) (v : ℚ) : List (String × ℚ) → List (String × ℚ)
  | [] => [(k, v)]
  | p :: rest => if p.1 = k then (k, v) :: rest else p :: updateTs k v rest

/-- Python dict lookup: the value stored under `k`, if any. -/
def lookupTs (k : String) : List (String × ℚ) → Option ℚ
  | [] => none
  | p :: rest => if p.1 = k then some p.2 else lookupTs k rest

/-- The `keys_to_remove` list comprehension of `_clean_old_keys`: every key
whose entry is older than `max_age = 10.0` seconds. -/
def keysToRemove (current_time : ℚ) (ts : List (String × ℚ)) : List String :=
  (ts.filter (fun p => decide (current_time - p.2 > 10))).map Prod.fst

/-- `_clean_old_keys(current_time)`: `discard` each stale key from
`current_keys` and `del` it from `key_timestamps`. -/
def cleanOldKeys (current_time : ℚ) (st : LockerState) : LockerState :=
  let rem := keysToRemove current_time st.key_timestamps
  { st with
      current_keys := st.current_keys.filter (fun k => decide (k ∉ rem))
      key_timestamps := st.key_timestamps.filter (fun p => decide (p.1 ∉ rem)) }

/-- The `combo_timestamps` list of `_check_exit_combination`:
`self.key_timestamps.get(key, 0)` for each configured key, in order. -/
def comboTimestamps (st : LockerState) : List ℚ :=
  st.exit_combination.map (fun k => (lookupTs k st.key_timestamps).getD 0)

/-- `_check_exit_combination()`: all configured keys must be in
`current_keys`, the `combo_timestamps` list must be nonempty, and the
spread `max - min` of those timestamps must be within
`exit_combo_timeout`.  Python's `max`/`min` over a nonempty list are
folds over its elements. -/
def checkExitCombination (st : LockerState) : Bool :=
  if st.exit_combination.all (fun k => decide (k ∈ st.current_keys)) then
    match comboTimestamps st with
    | [] => false
    | t :: ts => decide (ts.foldl max t - ts.foldl min t ≤ st.exit_combo_timeout)
  else false

/-- Python `==` between a raw pynput key object and an element of
`self.current_keys`.  `current_keys` holds the *normalized strings*
produced by `_normalize_key` (e.g. `"alt"`), and a pynput `Key` enum
member never compares equal to a `str` (both sides' `__eq__` return
`NotImplemented`, so `==` falls back to identity), so the comparison is
always `False`, whatever the key and whatever the string. -/
def pyKeyEqStr (_ : RawKey) (_ : String) : Bool := false

/-- Python membership `key in self.current_keys` of a raw pynput key
object in the set of normalized strings: elementwise `==`. -/
def pyKeyMem (k : RawKey) (l : List String) : Bool :=
  l.any (fun s => pyKeyEqStr k s)

/-- `_should_block_key(key)`: block the Windows key unconditionally, and
Tab or F4 while `Key.alt_l` or `Key.alt_r` is in `current_keys` — note the
argument is the raw pynput object while `current_keys` holds normalized
strings, so those membership tests are embedded via `pyKeyMem`. -/
def shouldBlockKey (key : RawKey) (st : LockerState) : Bool :=
  if key = RawKey.cmd_l ∨ key = RawKey.cmd_r then true
  else if key = RawKey.tab ∧
      (pyKeyMem RawKey.alt_l st.current_keys || pyKeyMem RawKey.alt_r st.current_keys) = true then
    true
  else if key = RawKey.f4 ∧
      (pyKeyMem RawKey.alt_l st.current_keys || pyKeyMem RawKey.alt_r st.current_keys) = true then
    true
  else false

/-- The state after `_on_press` has recorded the key and run the stuck-key
sweep (the body of the `with self.key_lock` block): add the normalized key
to `current_keys`, stamp it with `current_time`, then clean old keys. -/
def recordPress (current_time : ℚ) (key : RawKey) (st : LockerState) : LockerState :=
  let normalized := normalizeKey key
  cleanOldKeys current_time
    { st with
        current_keys := addKey normalized st.current_keys
        key_timestamps := updateTs normalized current_time st.key_timestamps }

/-- `_on_press(key)` at wall-clock time `current_time`: record and sweep,
then on a combination match set the exit flag and suppress the event; else
suppress when the blocking policy fires; else allow.  The `Bool` is the
hook return value: `false` suppresses the key, `true` lets it through. -/
def onPress (current_time : ℚ) (key : RawKey) (st : LockerState) : LockerState × Bool :=
  let st1 := recordPress current_time key st
  if checkExitCombination st1 then
    ({ st1 with should_exit_flag := true }, false)
  else if shouldBlockKey key st1 then
    (st1, false)
  else
    (st1, true)

/-- `_on_release(key)`: `discard` the normalized key from the set and
`del` its timestamp entry if present; always returns `True`. -/
def onRelease (key : RawKey) (st : LockerState) : LockerState × Bool :=
  let normalized := normalizeKey key
  ({ st with
      current_keys := st.current_keys.filter (fun k => decide (k ≠ normalized))
      key_timestamps := st.key_timestamps.filter (fun p => decide (p.1 ≠ normalized)) },
    true)

/-- `should_exit()`: a read of the flag. -/
def should_exit (st : LockerState) : Bool :=
  st.should_exit_flag

/-- `stop()`: set `running = False`, and when a listener object exists call
its `stop()` (which ends the background thread; `self.listener` itself
stays set).  No other attribute is touched and nothing can raise. -/
def stop (st : LockerState) : LockerState :=
  { st with running := false }

/-- `start()` with the pynput call modelled as an external fallible
operation: `attempt n` is the outcome the hook installation
(`keyboard.Listener(...)` plus `listener.start()`) would report on an
`n`-th attempt.  The body returns early off Windows, sets `running`, and
makes a single attempt with no exception handler around it, so an error
propagates to the caller unchanged. -/
def start (st : LockerState) (attempt : Nat → Except HookError Unit) :
    Except HookError LockerState :=
  if st.platform ≠ .win32 then .ok st
  else
    let st1 := { st with running := true }
    match attempt 0 with
    | .error e => .error e
    | .ok _ => .ok { st1 with listener := true }

/-- One callback delivered by the hook thread: a press carries the
`time.time()` value observed while handling it. -/
inductive KeyEvent where
  | press (current_time : ℚ) (key : RawKey)
  | release (key : RawKey)
  deriving DecidableEq

/-- The state transformer of one callback (the returned suppress/allow
decision dropped). -/
def step (st : LockerState) : KeyEvent → LockerState
  | .press t k => (onPress t k st).1
  | .release k => (onRelease k st).1

/-- A whole serial sequence of callbacks. -/
def run (st : LockerState) (evs : List KeyEvent) : LockerState :=
  evs.foldl step st

/-- Spec-side matching condition for the exit gesture: every configured key
currently held, and the spread (max minus min) of the combination's
recorded press timestamps at most the exit window. -/
def comboSpread (st : LockerState) : ℚ :=
  match comboTimestamps st with
  | [] => 0
  | t :: ts => ts.foldl max t - ts.foldl min t

/-- Spec-side matching condition, as a proposition. -/
def comboSatisfied (st : LockerState) : Prop :=
  (∀ k ∈ st.exit_combination, k ∈ st.current_keys) ∧
  comboSpread st ≤ st.exit_combo_timeout

/-- Whether one callback, delivered in state `st`, is a press that finds
the exit combination satisfied — the condition under which `_on_press`
sets the exit flag. -/
def pressTrigger (st : LockerState) : KeyEvent → Bool
  | .press t k => checkExitCombination (recordPress t k st)
  | .release _ => false

/-- Whether some callback of the sequence sets the exit flag when the
sequence is delivered starting from `st`. -/
def existsTrigger (st : LockerState) : List KeyEvent → Bool
  | [] => false
  | ev :: rest => pressTrigger st ev || existsTrigger (step st ev) rest

/-- The held-key set and the timestamp map track exactly the same keys. -/
def keysMatch (st : LockerState) : Prop :=
  ∀ k, k ∈ st.current_keys ↔ (lookupTs k st.key_timestamps).isSome = true

theorem mem_addKey (k n : String) (l : List String) :
    k ∈ addKey n l ↔ k ∈ l ∨ k = n := by
  unfold addKey
  by_cases h : n ∈ l
  · simp only [if_pos h]
    constructor
    · exact Or.inl
    · rintro (hk | rfl)
      · exact hk
      · exact h
  · simp [if_neg h]

theorem lookupTs_updateTs_self (n : String) (v : ℚ) (l : List (String × ℚ)) :
    lookupTs n (updateTs n v l) = some v := by
  induction l with
  | nil => simp [updateTs, lookupTs]
  | cons p rest ih =>
    by_cases h : p.1 = n
    · simp [updateTs, lookupTs, h]
    · simp [updateTs, lookupTs, h, ih]

theorem lookupTs_updateTs_ne (k n : String) (v : ℚ) (l : List (String × ℚ))
    (h : k ≠ n) : lookupTs k (updateTs n v l) = lookupTs k l := by
  induction l with
  | nil => simp [updateTs, lookupTs, Ne.symm h]
  | cons p rest ih =>
    by_cases hp : p.1 = n
    · simp [updateTs, lookupTs, hp, Ne.symm h]
    · simp [updateTs, lookupTs, hp, ih]

theorem lookupTs_mem (k : String) (v : ℚ) (l : List (String × ℚ))
    (h : lookupTs k l = some v) : (k, v) ∈ l := by
  induction l with
  | nil => simp [lookupTs] at h
  | cons p rest ih =>
    obtain ⟨a, b⟩ := p
    by_cases hp : a = k
    · subst hp
      simp [lookupTs] at h
      subst h
      exact List.mem_cons_self _ _
    · simp [lookupTs, hp] at h
      exact List.mem_cons_of_mem _ (ih h)

theorem lookupTs_filter_out (k : String) (rem : List String)
    (l : List (String × ℚ)) :
    lookupTs k (l.filter (fun p => decide (p.1 ∉ rem))) =
      if k ∈ rem then none else lookupTs k l := by
  induction l with
  | nil => simp [lookupTs]
  | cons p rest ih =>
    obtain ⟨a, b⟩ := p
    simp only [decide_not] at ih ⊢
    by_cases hk : a = k
    · subst hk
      by_cases ha : a ∈ rem
      · simp [List.filter_cons, ha, lookupTs, ih]
      · simp [List.filter_cons, ha, lookupTs]
    · by_cases ha : a ∈ rem
      · simp [List.filter_cons, ha, lookupTs, hk, ih]
      · simp [List.filter_cons, ha, lookupTs, hk, ih]

theorem lookupTs_filter_ne (k n : String) (l : List (String × ℚ)) :
    lookupTs k (l.filter (fun p => decide (p.1 ≠ n))) =
      if k = n then none else lookupTs k l := by
  induction l with
  | nil => simp [lookupTs]
  | cons p rest ih =>
    obtain ⟨a, b⟩ := p
    simp only [decide_not] at ih ⊢
    by_cases ha : a = n
    · subst ha
      by_cases hk : k = a
      · subst hk
        simp [List.filter_cons, lookupTs, ih]
      · simp [List.filter_cons, lookupTs, hk, Ne.symm hk, ih]
    · by_cases hk : a = k
      · subst hk
        simp [List.filter_cons, ha, lookupTs]
      · simp [List.filter_cons, ha, lookupTs, hk, ih]

theorem onPress_fst_eq (t : ℚ) (k : RawKey) (st : LockerState) :
    (onPress t k st).1 =
      if checkExitCombination (recordPress t k st) then
        { recordPress t k st with should_exit_flag := true }
      else recordPress t k st := by
  by_cases h : checkExitCombination (recordPress t k st)
  · simp [onPress, h]
  · by_cases hb : shouldBlockKey k (recordPress t k st)
    · simp [onPress, h, hb]
    · simp [onPress, h, hb]

theorem onPress_fst_current_keys (t : ℚ) (k : RawKey) (st : LockerState) :
    ((onPress t k st).1).current_keys = (recordPress t k st).current_keys := by
  rw [onPress_fst_eq]
  split <;> rfl

theorem onPress_fst_key_timestamps (t : ℚ) (k : RawKey) (st : LockerState) :
    ((onPress t k st).1).key_timestamps = (recordPress t k st).key_timestamps := by
  rw [onPress_fst_eq]
  split <;> rfl

theorem should_exit_onPress (t : ℚ) (k : RawKey) (st : LockerState) :
    should_exit (onPress t k st).1 =
      (should_exit st || checkExitCombination (recordPress t k st)) := by
  rw [should_exit, onPress_fst_eq]
  by_cases h : checkExitCombination (recordPress t k st)
  · simp [h, should_exit]
  · simp [h, should_exit]
    rfl

theorem should_exit_step (st : LockerState) (ev : KeyEvent) :
    should_exit (step st ev) = (should_exit st || pressTrigger st ev) := by
  cases ev with
  | press t k => exact should_exit_onPress t k st
  | release k => simp [step, onRelease, should_exit, pressTrigger]

theorem step_exit_combination (st : LockerState) (ev : KeyEvent) :
    (step st ev).exit_combination = st.exit_combination := by
  cases ev with
  | press t k =>
    show ((onPress t k st).1).exit_combination = _
    rw [onPress_fst_eq]
    split <;> rfl
  | release k => rfl

theorem step_exit_combo_timeout (st : LockerState) (ev : KeyEvent) :
    (step st ev).exit_combo_timeout = st.exit_combo_timeout := by
  cases ev with
  | press t k =>
    show ((onPress t k st).1).exit_combo_timeout = _
    rw [onPress_fst_eq]
    split <;> rfl
  | release k => rfl

theorem run_nil (st : LockerState) : run st [] = st := rfl

theorem run_cons (st : LockerState) (ev : KeyEvent) (evs : List KeyEvent) :
    run st (ev :: evs) = run (step st ev) evs := rfl

theorem run_exit_combination (st : LockerState) (evs : List KeyEvent) :
    (run st evs).exit_combination = st.exit_combination := by
  induction evs generalizing st with
  | nil => rfl
  | cons ev rest ih => rw [run_cons, ih, step_exit_combination]

theorem run_exit_combo_timeout (st : LockerState) (evs : List KeyEvent) :
    (run st evs).exit_combo_timeout = st.exit_combo_timeout := by
  induction evs generalizing st with
  | nil => rfl
  | cons ev rest ih => rw [run_cons, ih, step_exit_combo_timeout]

theorem should_exit_run (st : LockerState) (evs : List KeyEvent) :
    should_exit (run st evs) = (should_exit st || existsTrigger st evs) := by
  induction evs generalizing st with
  | nil => simp [run, existsTrigger]
  | cons ev rest ih =>
    rw [run_cons, ih, existsTrigger, should_exit_step, Bool.or_assoc]

theorem existsTrigger_iff (st : LockerState) (evs : List KeyEvent) :
    existsTrigger st evs = true ↔
      ∃ pre t k post, evs = pre ++ KeyEvent.press t k :: post ∧
        checkExitCombination (recordPress t k (run st pre)) = true := by
  induction evs generalizing st with
  | nil => simp [existsTrigger]
  | cons ev rest ih =>
    rw [existsTrigger, Bool.or_eq_true, ih (step st ev)]
    constructor
    · rintro (h | ⟨pre, t, k, post, rfl, h⟩)
      · cases ev with
        | press t k => exact ⟨[], t, k, rest, rfl, h⟩
        | release k => simp [pressTrigger] at h
      · exact ⟨ev :: pre, t, k, post, rfl, h⟩
    · rintro ⟨pre, t, k, post, heq, h⟩
      cases pre with
      | nil =>
        simp only [List.nil_append] at heq
        cases heq
        exact Or.inl h
      | cons e pre =>
        rw [List.cons_append] at heq
        cases heq
        exact Or.inr ⟨pre, t, k, post, rfl, h⟩

theorem initState_exit_combination_ne_nil (arg : Option (List String)) :
    (initState arg).exit_combination ≠ [] := by
  cases arg with
  | none => simp [initState]
  | some l =>
    by_cases h : l = []
    · simp [initState, h]
    · simp [initState, h]

theorem checkExitCombination_iff (st : LockerState)
    (hne : st.exit_combination ≠ []) :
    checkExitCombination st = true ↔ comboSatisfied st := by
  obtain ⟨c, cs, hc⟩ := List.exists_cons_of_ne_nil hne
  by_cases hall : ∀ k ∈ st.exit_combination, k ∈ st.current_keys
  · have hall' : st.exit_combination.all (fun k => decide (k ∈ st.current_keys)) = true := by
      simp [List.all_eq_true]
      exact hall
    unfold checkExitCombination comboSatisfied comboSpread
    rw [if_pos hall']
    have hct : comboTimestamps st =
        (lookupTs c st.key_timestamps).getD 0 ::
          cs.map (fun k => (lookupTs k st.key_timestamps).getD 0) := by
      rw [comboTimestamps, hc, List.map_cons]
    rw [hct]
    simp only [decide_eq_true_eq]
    constructor
    · intro h
      exact ⟨hall, h⟩
    · intro h
      exact h.2
  · have hall' : st.exit_combination.all (fun k => decide (k ∈ st.current_keys)) = false := by
      simp [List.all_eq_true]
      simpa using hall
    unfold checkExitCombination comboSatisfied
    rw [if_neg (by simp [hall'])]
    simp
    intro h
    exact absurd h hall

theorem keysMatch_initState (arg : Option (List String)) :
    keysMatch (initState arg) := by
  intro k
  simp [initState, lookupTs]

theorem keysMatch_record (n : String) (v : ℚ) (st : LockerState)
    (h : keysMatch st) :
    keysMatch { st with
        current_keys := addKey n st.current_keys
        key_timestamps := updateTs n v st.key_timestamps } := by
  intro k
  show k ∈ addKey n st.current_keys ↔
    (lookupTs k (updateTs n v st.key_timestamps)).isSome = true
  by_cases hk : k = n
  · subst hk
    simp [mem_addKey, lookupTs_updateTs_self]
  · rw [lookupTs_updateTs_ne k n v _ hk, mem_addKey]
    simp [hk, h k]

theorem keysMatch_cleanOldKeys (t : ℚ) (st : LockerState)
    (h : keysMatch st) : keysMatch (cleanOldKeys t st) := by
  intro k
  show k ∈ st.current_keys.filter
      (fun x => decide (x ∉ keysToRemove t st.key_timestamps)) ↔
    (lookupTs k (st.key_timestamps.filter
      (fun p => decide (p.1 ∉ keysToRemove t st.key_timestamps)))).isSome = true
  rw [lookupTs_filter_out, List.mem_filter]
  by_cases hr : k ∈ keysToRemove t st.key_timestamps
  · simp [hr]
  · simp [hr, h k]

theorem keysMatch_recordPress (t : ℚ) (key : RawKey) (st : LockerState)
    (h : keysMatch st) : keysMatch (recordPress t key st) :=
  keysMatch_cleanOldKeys t _ (keysMatch_record (normalizeKey key) t st h)

theorem keysMatch_onRelease (key : RawKey) (st : LockerState)
    (h : keysMatch st) : keysMatch (onRelease key st).1 := by
  intro k
  show k ∈ st.current_keys.filter (fun x => decide (x ≠ normalizeKey key)) ↔
    (lookupTs k (st.key_timestamps.filter
      (fun p => decide (p.1 ≠ normalizeKey key)))).isSome = true
  rw [lookupTs_filter_ne, List.mem_filter]
  by_cases hk : k = normalizeKey key
  · simp [hk]
  · simp [hk, h k]

theorem keysMatch_step (st : LockerState) (ev : KeyEvent)
    (h : keysMatch st) : keysMatch (step st ev) := by
  cases ev with
  | press t k =>
    have hr := keysMatch_recordPress t k st h
    intro x
    show x ∈ ((onPress t k st).1).current_keys ↔
      (lookupTs x ((onPress t k st).1).key_timestamps).isSome = true
    rw [onPress_fst_current_keys, onPress_fst_key_timestamps]
    exact hr x
  | release k => exact keysMatch_onRelease k st h

theorem keysMatch_run (st : LockerState) (evs : List KeyEvent)
    (h : keysMatch st) : keysMatch (run st evs) := by
  induction evs generalizing st with
  | nil => exact h
  | cons ev rest ih => exact ih _ (keysMatch_step st ev h)

theorem mem_keysToRemove (t : ℚ) (k : String) (v : ℚ) (l : List (String × ℚ))
    (hl : lookupTs k l = some v) (hv : t - v > 10) : k ∈ keysToRemove t l := by
  unfold keysToRemove
  have hmem : (k, v) ∈ l.filter (fun p => decide (t - p.2 > 10)) := by
    rw [List.mem_filter]
    exact ⟨lookupTs_mem k v l hl, by simpa using hv⟩
  exact List.mem_map_of_mem Prod.fst hmem

theorem cleanOldKeys_removes (t : ℚ) (st : LockerState) (k : String) (v : ℚ)
    (hl : lookupTs k st.key_timestamps = some v) (hv : t - v > 10) :
    k ∉ (cleanOldKeys t st).current_keys ∧
      lookupTs k (cleanOldKeys t st).key_timestamps = none := by
  have hr : k ∈ keysToRemove t st.key_timestamps := mem_keysToRemove t k v _ hl hv
  constructor
  · intro hmem
    rw [show (cleanOldKeys t st).current_keys = st.current_keys.filter
        (fun x => decide (x ∉ keysToRemove t st.key_timestamps)) from rfl,
      List.mem_filter] at hmem
    simp at hmem
    exact hmem.2 hr
  · rw [show (cleanOldKeys t st).key_timestamps = st.key_timestamps.filter
        (fun p => decide (p.1 ∉ keysToRemove t st.key_timestamps)) from rfl,
      lookupTs_filter_out]
    simp [hr]

theorem recordPress_exit_combination (t : ℚ) (key : RawKey) (st : LockerState) :
    (recordPress t key st).exit_combination = st.exit_combination := rfl

theorem pyKeyMem_false (k : RawKey) (l : List String) : pyKeyMem k l = false := by
  induction l with
  | nil => rfl
  | cons a rest ih => simp [pyKeyMem, pyKeyEqStr] at ih ⊢

/-- **C1**: for every constructor argument and every sequence of
press/release events, `should_exit()` is true after the run exactly when
some press event of the sequence, at the moment it was recorded (sweep
included), found every key of the configured exit combination held with
press-timestamp spread (max minus min) at most the 2-second exit window;
concretely, Ctrl at t=0, Shift at t=0.5, Esc at t=1.5 (spread 1.5 s) sets
the flag and Ctrl at t=0, Shift at t=0.5, Esc at t=3 (spread 3 s) does
not. -/
theorem exit_iff_combo_within_window (arg : Option (List String))
    (evs : List KeyEvent) :
    (run (initState arg) evs).exit_combo_timeout = 2 ∧
    (should_exit (run (initState arg) evs) = true ↔
      ∃ pre t k post, evs = pre ++ KeyEvent.press t k :: post ∧
        comboSatisfied (recordPress t k (run (initState arg) pre))) ∧
    should_exit (run (initState none)
      [KeyEvent.press 0 RawKey.ctrl_l, KeyEvent.press (1/2) RawKey.shift_l,
       KeyEvent.press (3/2) RawKey.esc]) = true ∧
    should_exit (run (initState none)
      [KeyEvent.press 0 RawKey.ctrl_l, KeyEvent.press (1/2) RawKey.shift_l,
       KeyEvent.press 3 RawKey.esc]) = false := by
  refine ⟨by rw [run_exit_combo_timeout]; rfl, ?_,
    by with_unfolding_all rfl, by with_unfolding_all rfl⟩
  rw [should_exit_run, show should_exit (initState arg) = false from rfl,
    Bool.false_or, existsTrigger_iff]
  have hne : ∀ (pre : List KeyEvent) (t : ℚ) (k : RawKey),
      (recordPress t k (run (initState arg) pre)).exit_combination ≠ [] := by
    intro pre t k
    rw [recordPress_exit_combination, run_exit_combination]
    exact initState_exit_combination_ne_nil arg
  constructor
  · rintro ⟨pre, t, k, post, rfl, h⟩
    exact ⟨pre, t, k, post, rfl, (checkExitCombination_iff _ (hne pre t k)).1 h⟩
  · rintro ⟨pre, t, k, post, rfl, h⟩
    exact ⟨pre, t, k, post, rfl, (checkExitCombination_iff _ (hne pre t k)).2 h⟩

/-- **C2**: refuted on the code — a Tab press while an Alt variant is held
is NOT suppressed.  `_should_block_key` tests the raw pynput objects
`Key.alt_l`/`Key.alt_r` for membership in `current_keys`, but that set
holds the normalized *strings* (here `"alt"`), and a pynput key object
never equals a string, so the test is always false and the hook returns
`True` (allow) for the Tab press.  This contradicts the code's own
`Block Alt+Tab` comment. -/
theorem alt_tab_press_not_suppressed :
    "alt" ∈ ((onPress 0 RawKey.alt_l (initState none)).1).current_keys ∧
    shouldBlockKey RawKey.tab ((onPress 0 RawKey.alt_l (initState none)).1) = false ∧
    (onPress 1 RawKey.tab ((onPress 0 RawKey.alt_l (initState none)).1)).2 = true := by
  refine ⟨?_, by with_unfolding_all rfl, by with_unfolding_all rfl⟩
  have h : ((onPress 0 RawKey.alt_l (initState none)).1).current_keys = ["alt"] := by
    with_unfolding_all rfl
  rw [h]
  exact List.mem_cons_self _ _

/-- **C3**: once the exit flag has been set, no subsequent sequence of
press or release events ever clears it: `should_exit()` stays true for
the rest of the run, re-matching presses included (setting the
already-set flag again is a no-op). -/
theorem exit_flag_one_shot_latch (st : LockerState) (evs : List KeyEvent)
    (h : should_exit st = true) : should_exit (run st evs) = true := by
  rw [should_exit_run, h, Bool.true_or]

/-- Witness for the latch: the flag set by Ctrl+Shift+Esc stays true over a
later release, a re-matching Esc press, and another release. -/
theorem exit_flag_one_shot_latch_witness :
    should_exit (run (run (initState none)
      [KeyEvent.press 0 RawKey.ctrl_l, KeyEvent.press 0 RawKey.shift_l,
       KeyEvent.press 1 RawKey.esc])
      [KeyEvent.release RawKey.esc, KeyEvent.press 2 RawKey.esc,
       KeyEvent.release RawKey.ctrl_l]) = true :=
  exit_flag_one_shot_latch _ _ (by with_unfolding_all rfl)

/-- **C4**: at the moment a press is processed, every other key whose
recorded press timestamp is more than `max_key_age = 10` seconds old is
removed from both the held-set and the timestamp map by the sweep that
press performs. -/
theorem stuck_keys_swept (st : LockerState) (t : ℚ) (key : RawKey)
    (k : String) (v : ℚ)
    (hl : lookupTs k st.key_timestamps = some v)
    (hage : t - v > 10)
    (hk : normalizeKey key ≠ k) :
    k ∉ ((onPress t key st).1).current_keys ∧
      lookupTs k ((onPress t key st).1).key_timestamps = none := by
  rw [onPress_fst_current_keys, onPress_fst_key_timestamps]
  have hl' : lookupTs k
      (updateTs (normalizeKey key) t st.key_timestamps) = some v := by
    rw [lookupTs_updateTs_ne k _ t _ (Ne.symm hk)]
    exact hl
  exact cleanOldKeys_removes t
    { st with
        current_keys := addKey (normalizeKey key) st.current_keys
        key_timestamps := updateTs (normalizeKey key) t st.key_timestamps }
    k v hl' hage

/-- Witness for the sweep: key `a` pressed at t=0 and never released is
absent from the held-set and the timestamp map after an unrelated press of
`b` at t=11 triggers the sweep. -/
theorem stuck_keys_swept_witness :
    "a" ∉ ((onPress 11 (RawKey.charKey 'b')
        ((onPress 0 (RawKey.charKey 'a') (initState none)).1)).1).current_keys ∧
      lookupTs "a" ((onPress 11 (RawKey.charKey 'b')
        ((onPress 0 (RawKey.charKey 'a') (initState none)).1)).1).key_timestamps = none :=
  stuck_keys_swept _ 11 (RawKey.charKey 'b') "a" 0
    (by with_unfolding_all rfl) (by norm_num)
    (by
      have hb : normalizeKey (RawKey.charKey 'b') = "b" := by with_unfolding_all rfl
      rw [hb]
      decide)

/-- **C5**: a Windows/Meta key press (either side) is always suppressed,
whatever else is held; and a press that matches no blocking rule and does
not complete the exit combination is allowed through — in particular a
Tab press while no Alt variant is held. -/
theorem windows_suppressed_default_allow :
    (∀ (st : LockerState) (t : ℚ),
        (onPress t RawKey.cmd_l st).2 = false ∧
        (onPress t RawKey.cmd_r st).2 = false) ∧
    (∀ (st : LockerState) (t : ℚ) (key : RawKey),
        shouldBlockKey key (recordPress t key st) = false →
        checkExitCombination (recordPress t key st) = false →
        (onPress t key st).2 = true) ∧
    (∀ (st : LockerState) (t : ℚ),
        "alt" ∉ st.current_keys →
        checkExitCombination (recordPress t RawKey.tab st) = false →
        (onPress t RawKey.tab st).2 = true) := by
  refine ⟨?_, ?_, ?_⟩
  · intro st t
    constructor
    · by_cases h : checkExitCombination (recordPress t RawKey.cmd_l st)
      · simp [onPress, h]
      · simp [onPress, h, shouldBlockKey]
    · by_cases h : checkExitCombination (recordPress t RawKey.cmd_r st)
      · simp [onPress, h]
      · simp [onPress, h, shouldBlockKey]
  · intro st t key hb hc
    simp [onPress, hb, hc]
  · intro st t _ hc
    have hb : shouldBlockKey RawKey.tab (recordPress t RawKey.tab st) = false := by
      simp [shouldBlockKey, pyKeyMem_false]
    simp [onPress, hb, hc]

/-- Witness for the blocking policy: a Tab press on a fresh guard with
nothing held is allowed through. -/
theorem windows_suppressed_default_allow_witness :
    (onPress 0 RawKey.tab (initState none)).2 = true :=
  windows_suppressed_default_allow.2.2 (initState none) 0
    (by simp [initState]) (by with_unfolding_all rfl)

/-- **C6**: left and right variants of a modifier normalize to the same
canonical key, so with the configured combination
`["ctrl", "shift", "esc"]` both the all-left and the all-right press
sequences within the window set the exit flag. -/
theorem side_agnostic_modifiers :
    normalizeKey RawKey.ctrl_l = normalizeKey RawKey.ctrl_r ∧
    normalizeKey RawKey.shift_l = normalizeKey RawKey.shift_r ∧
    should_exit (run (initState (some ["ctrl", "shift", "esc"]))
      [KeyEvent.press 0 RawKey.ctrl_l, KeyEvent.press (1/2) RawKey.shift_l,
       KeyEvent.press 1 RawKey.esc]) = true ∧
    should_exit (run (initState (some ["ctrl", "shift", "esc"]))
      [KeyEvent.press 0 RawKey.ctrl_r, KeyEvent.press (1/2) RawKey.shift_r,
       KeyEvent.press 1 RawKey.esc]) = true :=
  ⟨rfl, rfl, by with_unfolding_all rfl, by with_unfolding_all rfl⟩

/-- **C7**: refuted as stated — `stop()` does not drop the tracked key
state: with key `a` recorded as held, the pressed-key set after `stop()`
is not empty. -/
theorem stop_does_not_clear_state :
    (stop ((onPress 0 (RawKey.charKey 'a') (initState none)).1)).current_keys ≠ [] := by
  have h : (stop ((onPress 0 (RawKey.charKey 'a')
      (initState none)).1)).current_keys = ["a"] := by
    with_unfolding_all rfl
  rw [h]
  exact List.cons_ne_nil _ _

/-- **C7** (amended): `stop()` sets `running` to false, is safe to call in
any state — including on a guard that was never started — and raises
nothing, but it leaves the pressed-key set, the timestamp map and the
exit flag untouched. -/
theorem stop_safe_any_state (st : LockerState) :
    (stop st).running = false ∧
    (stop st).current_keys = st.current_keys ∧
    (stop st).key_timestamps = st.key_timestamps ∧
    (stop st).should_exit_flag = st.should_exit_flag :=
  ⟨rfl, rfl, rfl, rfl⟩

/-- **C8**: a hook-installation failure is surfaced by `start()` to its
caller exactly once: the single installation attempt's error is returned
unchanged (there is no handler and no retry — the result depends only on
attempt 0), and the unsupported-platform case is surfaced as an error
already at construction. -/
theorem start_surfaces_hook_failure :
    (∀ (st : LockerState) (attempt : Nat → Except HookError Unit) (e : HookError),
        st.platform = Platform.win32 → attempt 0 = Except.error e →
        start st attempt = Except.error e) ∧
    (∀ (st : LockerState) (f g : Nat → Except HookError Unit),
        f 0 = g 0 → start st f = start st g) ∧
    (∀ arg : Option (List String),
        initLocker Platform.other arg =
          Except.error "KeyboardLocker only works on Windows") := by
  refine ⟨?_, ?_, ?_⟩
  · intro st attempt e hp he
    simp [start, hp, he]
  · intro st f g hfg
    unfold start
    rw [hfg]
  · intro arg
    simp [initLocker]

/-- Witness for surfacing: a denied hook on a fresh guard propagates the
error out of `start`. -/
theorem start_surfaces_hook_failure_witness :
    start (initState none) (fun _ => Except.error ⟨"hook denied"⟩) =
      Except.error ⟨"hook denied"⟩ :=
  start_surfaces_hook_failure.1 (initState none)
    (fun _ => Except.error ⟨"hook denied"⟩) ⟨"hook denied"⟩ rfl rfl

/-- **C9**: for every constructor argument the configured combination is
non-empty; with no argument the default `["ctrl", "shift", "esc"]` is
used; and the combination never changes over the instance's lifetime
(neither events nor `stop` touch it). -/
theorem exit_combination_nonempty_default_immutable :
    (∀ arg : Option (List String), (initState arg).exit_combination ≠ []) ∧
    (initState none).exit_combination = ["ctrl", "shift", "esc"] ∧
    (∀ (arg : Option (List String)) (evs : List KeyEvent),
        (run (initState arg) evs).exit_combination =
          (initState arg).exit_combination) ∧
    (∀ st : LockerState, (stop st).exit_combination = st.exit_combination) :=
  ⟨initState_exit_combination_ne_nil, rfl,
    fun arg evs => run_exit_combination (initState arg) evs,
    fun _ => rfl⟩

/-- **C10**: after every press, release and sweep operation starting from
a freshly constructed guard, the held-key set coincides with the key set
of the timestamp map: a key is held iff it has a recorded press
timestamp, so the matcher's lookup for a held combination key never falls
back to its default of `0`. -/
theorem held_keys_match_timestamps (arg : Option (List String))
    (evs : List KeyEvent) (k : String) :
    k ∈ (run (initState arg) evs).current_keys ↔
      (lookupTs k (run (initState arg) evs).key_timestamps).isSome = true :=
  keysMatch_run (initState arg) evs (keysMatch_initState arg) k
